import Mathlib

/-!
Verification of the redis-collectd plugin (`redis_info.py`) against its
natural-language specification.

The development shallowly embeds the plugin's Python 2 code:

* Python values flowing through the `info` mapping become the inductive
  type `PyVal` (strings, integers, `None`, and dicts).
* The `info` dict is an insertion-ordered association list with
  overwrite-in-place semantics (`pyInsert` / `pyLookupA`), which models
  both key uniqueness and the iteration order used by `for key in info`.
* Fallible Python operations (item lookup, `int(...)`, `.strip()`,
  sequence unpacking) are embedded in `Except PErr`, with one error
  constructor per Python exception class that can occur.
* `str.split`, `str.rpartition`, `str.strip`, `int(str)`, `str.startswith`
  and the `in` operator are re-implemented character-exactly on
  `List Char` (`splitChar`, `rpartitionEqL`, `pyStripL`, ...).

The functions `parse_info`, `dispatch_value`, `read_callback` and
`fetch_info` below are direct transcriptions of the same-named Python
functions.
-/

namespace RedisInfo

/-- Python exception classes that the plugin's code can raise. -/
inductive PErr where
  | keyError
  | valueError
  | typeError
  | attributeError
deriving DecidableEq, Repr

/-- Python values stored in the `info` mapping: strings (raw scalar field
values), integers (the derived `delay` and `slaves_max_delay` values),
`None` (the alias default), and dicts (sub-maps for `db*` / `slave*`). -/
inductive PyVal where
  | str : String → PyVal
  | int : Int → PyVal
  | none : PyVal
  | dict : List (String × PyVal) → PyVal

/-- The `info` mapping: a Python dict from field name to value, modelled
as an insertion-ordered association list with unique keys. -/
abbrev Info := List (String × PyVal)

/-- A metric sample sent through `collectd.Values(...).dispatch()`:
the `type`, the `type_instance` name, and the numeric value. -/
structure Reading where
  typ : String
  name : String
  value : Int

/-! ### Character-exact string primitives -/

/-- Membership of a character in a character list (Python `c in s`). -/
def elemC (c : Char) : List Char → Bool
  | [] => false
  | x :: xs => if x = c then true else elemC c xs

/-- Number of occurrences of a character in a character list. -/
def countC (c : Char) : List Char → Nat
  | [] => 0
  | x :: xs => if x = c then countC c xs + 1 else countC c xs

/-- Python `str.split(sep)` for a one-character separator: split on every
occurrence; the empty string splits to `[[]]`. -/
def splitChar (c : Char) : List Char → List (List Char)
  | [] => [[]]
  | x :: xs =>
    if x = c then [] :: splitChar c xs
    else
      match splitChar c xs with
      | [] => [[x]]
      | y :: ys => (x :: y) :: ys

/-- Inverse of `splitChar`: interleave the separator back. -/
def joinChar (c : Char) : List (List Char) → List Char
  | [] => []
  | [x] => x
  | x :: xs => x ++ c :: joinChar c xs

/-- Python `needle in haystack` prefix test (`str.startswith`). -/
def isPreC : List Char → List Char → Bool
  | [], _ => true
  | _ :: _, [] => false
  | a :: as, b :: bs => if a = b then isPreC as bs else false

/-- Python `sub in s` substring test for strings. -/
def isSubC (sub : List Char) : List Char → Bool
  | [] => sub.isEmpty
  | c :: rest => if isPreC sub (c :: rest) then true else isSubC sub rest

/-- Python whitespace characters recognized by `str.strip()` and `int()`. -/
def isPySpace (c : Char) : Bool :=
  c = ' ' || c = '\t' || c = '\n' || c = '\r' || c = '\x0b' || c = '\x0c'

/-- Python `str.strip()`: drop trailing then leading whitespace. -/
def pyStripL (l : List Char) : List Char :=
  ((l.reverse.dropWhile isPySpace).reverse).dropWhile isPySpace

/-- String wrapper for `pyStripL`. -/
def pyStrip (s : String) : String := ⟨pyStripL s.data⟩

/-- Numeric value of a digit string (valid only when all are digits). -/
def digitsToNat (l : List Char) : Nat :=
  l.foldl (fun a c => 10 * a + (c.toNat - 48)) 0

/-- Recognize a non-empty run of decimal digits. -/
def digitsVal (l : List Char) : Option Nat :=
  if l.isEmpty then Option.none
  else if l.all Char.isDigit then Option.some (digitsToNat l)
  else Option.none

/-- Python `int(s)` on a string: surrounding whitespace is ignored, an
optional single sign is allowed, then one or more decimal digits and
nothing else; `Option.none` models the `ValueError`. -/
def pyIntOfString (s : String) : Option Int :=
  match pyStripL s.data with
  | '+' :: rest => (digitsVal rest).map Int.ofNat
  | '-' :: rest => (digitsVal rest).map (fun n => -(n : Int))
  | l => (digitsVal l).map Int.ofNat

/-- Python `str.startswith`. -/
def pyStartsWith (s p : String) : Bool := isPreC p.data s.data

/-- Python `str.split(sep)` for one-character separators, on `String`. -/
def pySplitStr (s : String) (c : Char) : List String :=
  (splitChar c s.data).map (fun l => ⟨l⟩)

/-- Python `str.rpartition('=')` restricted to the two components the code
uses: the text before the last `=` and the text after it; when no `=` is
present the first component is empty and the second is the whole string. -/
def rpartitionEqL (l : List Char) : List Char × List Char :=
  let parts := splitChar '=' l
  (joinChar '=' parts.dropLast, parts.getLastD [])

/-- String wrapper for `rpartitionEqL`. -/
def pyRPartitionEq (s : String) : String × String :=
  (⟨(rpartitionEqL s.data).1⟩, ⟨(rpartitionEqL s.data).2⟩)

/-! ### Dict operations -/

/-- Lookup in an association list (Python `d[k]` / `d.get(k)`). -/
def pyLookupA {α : Type} : List (String × α) → String → Option α
  | [], _ => Option.none
  | (k', v) :: rest, k => if k' = k then Option.some v else pyLookupA rest k

/-- Python `d[k] = v`: overwrite in place when the key exists (keeping its
position, as a dict keeps its key set), else append. -/
def pyInsert {α : Type} : List (String × α) → String → α → List (String × α)
  | [], k, v => [(k, v)]
  | (k', v') :: rest, k, v =>
    if k' = k then (k, v) :: rest else (k', v') :: pyInsert rest k v

/-- Python `key in info` where `info` may be a dict or a string: dict
membership for dicts, substring test for strings, `TypeError` otherwise. -/
def pyMem (info : PyVal) (key : String) : Except PErr Bool :=
  match info with
  | PyVal.dict d => Except.ok (pyLookupA d key).isSome
  | PyVal.str s => Except.ok (isSubC key.data s.data)
  | PyVal.int _ => Except.error PErr.typeError
  | PyVal.none => Except.error PErr.typeError

/-- Python `info[key]`: dict lookup (`KeyError` when absent); subscripting
a string by a string, an int, or `None` raises `TypeError`. -/
def pyGetItem (info : PyVal) (key : String) : Except PErr PyVal :=
  match info with
  | PyVal.dict d =>
    match pyLookupA d key with
    | Option.some v => Except.ok v
    | Option.none => Except.error PErr.keyError
  | PyVal.str _ => Except.error PErr.typeError
  | PyVal.int _ => Except.error PErr.typeError
  | PyVal.none => Except.error PErr.typeError

/-- Python `v.strip()`: only strings have `.strip`. -/
def pyStripVal (v : PyVal) : Except PErr String :=
  match v with
  | PyVal.str s => Except.ok (pyStrip s)
  | _ => Except.error PErr.attributeError

/-- Python `int(v)` on a mapping value: parse strings, pass ints through,
`TypeError` on dicts and `None`. -/
def pyIntVal (v : PyVal) : Except PErr Int :=
  match v with
  | PyVal.str s =>
    match pyIntOfString s with
    | Option.some n => Except.ok n
    | Option.none => Except.error PErr.valueError
  | PyVal.int n => Except.ok n
  | PyVal.dict _ => Except.error PErr.typeError
  | PyVal.none => Except.error PErr.typeError

/-- Test for Python `type(v) == dict`. -/
def isDictB : PyVal → Bool
  | PyVal.dict _ => true
  | _ => false

/-- Regex `re.compile("slave\d+").match(key)`: `re.match` anchors at the
start only, so this is "starts with `slave` followed by a digit". -/
def slaveMatch (k : String) : Bool :=
  match k.data with
  | 's' :: 'l' :: 'a' :: 'v' :: 'e' :: c :: _ => c.isDigit
  | _ => false

/-! ### parse_info -/

/-- Per-line field value (`parse_info` lines 88-96): when the value text
contains a comma it becomes a sub-dict, splitting on `,` and splitting
each piece with `rpartition('=')`; otherwise it stays a raw string. -/
def mkFieldVal (v : String) : PyVal :=
  if elemC ',' v.data then
    PyVal.dict
      ((pySplitStr v ',').foldl
        (fun d piece => pyInsert d (pyRPartitionEq piece).1 (PyVal.str (pyRPartitionEq piece).2))
        [])
  else PyVal.str v

/-- The per-line loop of `parse_info` (lines 80-98): skip lines without a
`:`; `key, val = line.split(':')` unpacks only a two-element split, so a
line with two or more `:` raises `ValueError`. -/
def parseLinesAux (info : Info) : List String → Except PErr Info
  | [] => Except.ok info
  | line :: rest =>
    match elemC ':' line.data with
    | false => parseLinesAux info rest
    | true =>
      match pySplitStr line ':' with
      | [k, v] => parseLinesAux (pyInsert info k (mkFieldVal v)) rest
      | _ => Except.error PErr.valueError

/-- Line 100: `info["changes_since_last_save"] = info.get(
"changes_since_last_save", info.get("rdb_changes_since_last_save"))`.
The assignment always executes, so the key is always present afterwards,
possibly bound to `None`. -/
def aliasStep (info : Info) : Info :=
  pyInsert info "changes_since_last_save"
    (match pyLookupA info "changes_since_last_save" with
     | Option.some v => v
     | Option.none =>
       match pyLookupA info "rdb_changes_since_last_save" with
       | Option.some w => w
       | Option.none => PyVal.none)

/-- Store `info[key]["delay"] = v`: requires `info[key]` to be a dict
(assigning into a string raises `TypeError`). -/
def pySetDelay (info : Info) (key : String) (v : PyVal) : Except PErr Info :=
  match pyLookupA info key with
  | Option.some (PyVal.dict d) => Except.ok (pyInsert info key (PyVal.dict (pyInsert d "delay" v)))
  | Option.some _ => Except.error PErr.typeError
  | Option.none => Except.error PErr.keyError

/-- One iteration of the delay loop (lines 104-106); the arithmetic is
unguarded: a missing `master_repl_offset` raises `KeyError`, a
non-numeric offset raises `ValueError`. -/
def delayStep (info : Info) (key : String) : Except PErr Info :=
  match slaveMatch key with
  | false => Except.ok info
  | true =>
    match pyLookupA info "master_repl_offset" with
    | Option.none => Except.error PErr.keyError
    | Option.some mro =>
      match pyIntVal mro with
      | Except.error e => Except.error e
      | Except.ok a =>
        match pyGetItem ((pyLookupA info key).getD PyVal.none) "offset" with
        | Except.error e => Except.error e
        | Except.ok off =>
          match pyIntVal off with
          | Except.error e => Except.error e
          | Except.ok b => pySetDelay info key (PyVal.int (a - b))

/-- The delay loop over the mapping's keys (the loop mutates only values,
never the key set, so iterating the initial key list is faithful). -/
def delayLoop (info : Info) : List String → Except PErr Info
  | [] => Except.ok info
  | k :: ks =>
    match delayStep info k with
    | Except.error e => Except.error e
    | Except.ok info' => delayLoop info' ks

/-- `parse_info` (lines 77-108): per-line parse, then the
`changes_since_last_save` alias, then the replica-delay loop. -/
def parse_info (lines : List String) : Except PErr Info :=
  match parseLinesAux [] lines with
  | Except.error e => Except.error e
  | Except.ok i =>
    let i2 := aliasStep i
    delayLoop i2 (i2.map Prod.fst)

/-! ### dispatch_value -/

/-- The effective `type_instance` (lines 135-136): Python's truthiness
makes both `None` and the empty string fall back to the key. -/
def tiEff (ti : Option String) (key : String) : String :=
  match ti with
  | Option.none => key
  | Option.some s => if s = "" then key else s

/-- `dispatch_value` (lines 129-152): look up `key` in `info` (a dict, or
a string when the caller passed a scalar entry); with a variant table the
stripped value is translated through the table (absent variants are
skipped silently); otherwise the value is coerced with `int(...)`.
A produced `Reading` models `collectd.Values(...).dispatch()`. -/
def dispatch_value (info : PyVal) (key typ : String) (ti : Option String)
    (variants : Option (List (String × Int))) : Except PErr (List Reading) :=
  match pyMem info key with
  | Except.error e => Except.error e
  | Except.ok mem =>
    if mem = false then Except.ok []
    else
      match variants with
      | Option.some tbl =>
        match pyGetItem info key with
        | Except.error e => Except.error e
        | Except.ok v =>
          match pyStripVal v with
          | Except.error e => Except.error e
          | Except.ok s =>
            match pyLookupA tbl s with
            | Option.some code => Except.ok [⟨typ, tiEff ti key, code⟩]
            | Option.none => Except.ok []
      | Option.none =>
        match pyGetItem info key with
        | Except.error e => Except.error e
        | Except.ok v =>
          match pyIntVal v with
          | Except.error e => Except.error e
          | Except.ok n => Except.ok [⟨typ, tiEff ti key, n⟩]

/-! ### read_callback -/

/-- A metric spec as passed to `dispatch_value`:
(key, type, type_instance, variants). -/
abbrev MetricSpec := String × String × Option String × Option (List (String × Int))

/-- The unconditional dispatches of `read_callback` (lines 164-177),
in source order. -/
def stdSpecs : List MetricSpec :=
  [ ("uptime_in_seconds", "uptime", Option.some "uptime", Option.none),
    ("connected_clients", "gauge", Option.none, Option.none),
    ("connected_slaves", "gauge", Option.none, Option.none),
    ("blocked_clients", "gauge", Option.none, Option.none),
    ("used_memory", "bytes", Option.none, Option.none),
    ("rdb_changes_since_last_save", "gauge", Option.none, Option.none),
    ("total_connections_received", "counter", Option.some "connections_recieved", Option.none),
    ("total_commands_processed", "counter", Option.some "commands_processed", Option.none),
    ("keyspace_hits", "counter", Option.some "hits", Option.none),
    ("keyspace_misses", "counter", Option.some "misses", Option.none),
    ("role", "gauge", Option.none, Option.some [("slave", 0), ("master", 1)]),
    ("rdb_bgsave_in_progress", "gauge", Option.some "background_save_in_progress", Option.none) ]

/-- Run a list of dispatches sequentially, collecting the readings; an
uncaught exception from one dispatch aborts the rest. -/
def runDispatches (info : Info) : List MetricSpec → Except PErr (List Reading)
  | [] => Except.ok []
  | (k, t, ti, vnt) :: rest =>
    match dispatch_value (PyVal.dict info) k t ti vnt with
    | Except.error e => Except.error e
    | Except.ok rs =>
      match runDispatches info rest with
      | Except.error e => Except.error e
      | Except.ok rs2 => Except.ok (rs ++ rs2)

/-- The `delay` values of the replica entries (line 179-182):
`map(lambda x: x[1]['delay'], filter(slave-regex-match, info.items()))`. -/
def slaveDelays (info : Info) : Except PErr (List PyVal) :=
  (info.filter (fun kv => slaveMatch kv.1)).mapM (fun kv => pyGetItem kv.2 "delay")

/-- Python `max` over the delay values. `parse_info` stores every delay
as an integer, so only integer operands are reachable here; non-integer
operands are modelled as a type error. -/
def pyMaxVals (x : PyVal) (xs : List PyVal) : Except PErr PyVal :=
  match x with
  | PyVal.int n =>
    match xs with
    | [] => Except.ok (PyVal.int n)
    | PyVal.int m :: ys => pyMaxVals (PyVal.int (max n m)) ys
    | _ :: _ => Except.error PErr.typeError
  | _ => Except.error PErr.typeError

/-- Lines 179-185: collect the replica delays; when the list is non-empty,
insert `slaves_max_delay` into the mapping itself and then dispatch it
from the mutated mapping. -/
def slavesBlock (info : Info) : Except PErr (Info × List Reading) :=
  match slaveDelays info with
  | Except.error e => Except.error e
  | Except.ok [] => Except.ok (info, [])
  | Except.ok (d :: ds) =>
    match pyMaxVals d ds with
    | Except.error e => Except.error e
    | Except.ok m =>
      let info' := pyInsert info "slaves_max_delay" m
      match dispatch_value (PyVal.dict info') "slaves_max_delay" "gauge" Option.none Option.none with
      | Except.error e => Except.error e
      | Except.ok rs => Except.ok (info', rs)

/-- The conditional dispatches of `read_callback` (lines 188-192),
in source order. -/
def condSpecs : List MetricSpec :=
  [ ("master_repl_offset", "gauge", Option.none, Option.none),
    ("master_last_io_seconds_ago", "gauge", Option.none, Option.none),
    ("slave_repl_offset", "gauge", Option.none, Option.none),
    ("master_link_status", "gauge", Option.none, Option.some [("up", 1), ("down", 0)]),
    ("master_sync_in_progress", "gauge", Option.none, Option.none) ]

/-- Run the presence-guarded dispatches: `if key in info: dispatch_value(...)`. -/
def runCond (info : Info) : List MetricSpec → Except PErr (List Reading)
  | [] => Except.ok []
  | (k, t, ti, vnt) :: rest =>
    if (pyLookupA info k).isSome then
      match dispatch_value (PyVal.dict info) k t ti vnt with
      | Except.error e => Except.error e
      | Except.ok rs =>
        match runCond info rest with
        | Except.error e => Except.error e
        | Except.ok rs2 => Except.ok (rs ++ rs2)
    else runCond info rest

/-- Evaluate a branch guarded by an `if` with no `else`. -/
def branchIf (b : Bool) (x : Except PErr (List Reading)) : Except PErr (List Reading) :=
  if b then x else Except.ok []

/-- Sequence two reading-producing computations, concatenating results. -/
def appendE (x y : Except PErr (List Reading)) : Except PErr (List Reading) :=
  match x with
  | Except.error e => Except.error e
  | Except.ok a =>
    match y with
    | Except.error e => Except.error e
    | Except.ok b => Except.ok (a ++ b)

/-- `info[key]` for a key taken from the iteration over `info` itself
(always present, so the default is unreachable). -/
def pyItemD (info : Info) (k : String) : PyVal :=
  (pyLookupA info k).getD PyVal.none

/-- The body of the wildcard loop (lines 195-203) for one key: the four
independent `if` branches for `repl_`, `vm_stats_`, `db` and `slave`
prefixes, in source order. -/
def wildcardStep (info : Info) (k : String) : Except PErr (List Reading) :=
  appendE
    (branchIf (pyStartsWith k "repl_")
      (dispatch_value (PyVal.dict info) k "gauge" Option.none Option.none))
    (appendE
      (branchIf (pyStartsWith k "vm_stats_")
        (dispatch_value (PyVal.dict info) k "gauge" Option.none Option.none))
      (appendE
        (branchIf (pyStartsWith k "db")
          (dispatch_value (pyItemD info k) "keys" "gauge" (Option.some (k ++ "-keys")) Option.none))
        (branchIf (pyStartsWith k "slave" && isDictB (pyItemD info k))
          (dispatch_value (pyItemD info k) "delay" "gauge" (Option.some (k ++ "-delay")) Option.none))))

/-- The wildcard loop over the mapping's keys. -/
def wildcardLoop (info : Info) : List String → Except PErr (List Reading)
  | [] => Except.ok []
  | k :: ks =>
    match wildcardStep info k with
    | Except.error e => Except.error e
    | Except.ok rs =>
      match wildcardLoop info ks with
      | Except.error e => Except.error e
      | Except.ok rs2 => Except.ok (rs ++ rs2)

/-- `read_callback` (lines 155-203) after a successful fetch: the
unconditional dispatches, the `slaves_max_delay` block (which mutates the
mapping), the presence-guarded replication dispatches, and the wildcard
loop. Returns the final mapping and the readings in dispatch order. -/
def read_callback (info : Info) : Except PErr (Info × List Reading) :=
  match runDispatches info stdSpecs with
  | Except.error e => Except.error e
  | Except.ok r1 =>
    match slavesBlock info with
    | Except.error e => Except.error e
    | Except.ok (info2, r2) =>
      match runCond info2 condSpecs with
      | Except.error e => Except.error e
      | Except.ok r3 =>
        match wildcardLoop info2 (info2.map Prod.fst) with
        | Except.error e => Except.error e
        | Except.ok r4 => Except.ok (info2, r1 ++ r2 ++ r3 ++ r4)

/-! ### fetch_info -/

/-- The transport environment a single fetch observes: whether the TCP
connect succeeds, the configured password, the authentication reply line,
the status line of the `info` reply, and the reply body. -/
structure FetchEnv where
  connectOk : Bool
  password : Option String
  authReply : String
  statusLine : String
  body : String

/-- Result of a fetch: the returned value (or the propagated exception)
and whether `s.close()` was executed before leaving `fetch_info`. -/
structure FetchOut where
  result : Except PErr (Option Info)
  closed : Bool

/-- Python truthiness of `REDIS_PASS` (line 58): `None` and the empty
string are falsy. -/
def pwTruthy : Option String → Bool
  | Option.none => false
  | Option.some s => if s = "" then false else true

/-- Python `status_line[1:-1]`: drop the first and the last character. -/
def pySlice1Neg1 (s : String) : String := ⟨(s.data.drop 1).dropLast⟩

/-- Python `fp.read(n)`: the first `n` bytes of the remaining stream, or
everything when `n` is negative. -/
def pyRead (body : String) (n : Int) : String :=
  if n < 0 then body else ⟨body.data.take n.toNat⟩

/-- `fetch_info` (lines 47-74). The only `s.close()` is on the success
path (line 73), executed after the body is read and before `parse_info`
runs; the connect-failure, auth-failure and bad-status-line paths leave
the function without closing the socket. -/
def fetch_info (env : FetchEnv) : FetchOut :=
  if env.connectOk = false then
    { result := Except.ok Option.none, closed := false }
  else if pwTruthy env.password && !(pyStartsWith env.authReply "+OK") then
    { result := Except.ok Option.none, closed := false }
  else
    match pyIntOfString (pySlice1Neg1 env.statusLine) with
    | Option.none => { result := Except.error PErr.valueError, closed := false }
    | Option.some n =>
      match parse_info (pySplitStr (pyRead env.body n) '\n') with
      | Except.ok i => { result := Except.ok (Option.some i), closed := true }
      | Except.error e => { result := Except.error e, closed := true }

/-! ### Helper lemmas: strings and lists -/

theorem mk_data (s : String) : String.mk s.data = s := rfl

theorem data_append (s t : String) : (s ++ t).data = s.data ++ t.data := rfl

theorem elemC_append_sep (c : Char) (a b : List Char) :
    elemC c (a ++ c :: b) = true := by
  induction a with
  | nil => simp [elemC]
  | cons x xs ih =>
    simp only [List.cons_append, elemC]
    split
    · rfl
    · exact ih

theorem elemC_of_countC (c : Char) (l : List Char) (h : 1 ≤ countC c l) :
    elemC c l = true := by
  induction l with
  | nil => simp [countC] at h
  | cons x xs ih =>
    simp only [countC] at h
    simp only [elemC]
    split
    · rfl
    · next hne =>
      rw [if_neg hne] at h
      exact ih h

theorem splitChar_ne_nil (c : Char) (l : List Char) : splitChar c l ≠ [] := by
  cases l with
  | nil => simp [splitChar]
  | cons x xs =>
    simp only [splitChar]
    split
    · simp
    · split
      · simp
      · simp

theorem length_splitChar (c : Char) (l : List Char) :
    (splitChar c l).length = countC c l + 1 := by
  induction l with
  | nil => rfl
  | cons x xs ih =>
    simp only [splitChar, countC]
    split
    · simp only [List.length_cons, ih]
    · cases hs : splitChar c xs with
      | nil => exact absurd hs (splitChar_ne_nil c xs)
      | cons y ys =>
        rw [hs] at ih
        simp only [List.length_cons] at ih ⊢
        omega

theorem splitChar_no_sep (c : Char) (l : List Char) (h : elemC c l = false) :
    splitChar c l = [l] := by
  induction l with
  | nil => rfl
  | cons x xs ih =>
    simp only [elemC] at h
    simp only [splitChar]
    split
    · next hx => rw [hx] at h; simp at h
    · next hx =>
      rw [if_neg (by simpa using hx)] at h
      rw [ih h]

theorem splitChar_sep (c : Char) (a b : List Char) :
    splitChar c (a ++ c :: b) = splitChar c a ++ splitChar c b := by
  induction a with
  | nil => simp [splitChar]
  | cons x xs ih =>
    simp only [List.cons_append, splitChar, List.append_eq]
    split
    · rw [ih]; rfl
    · cases hs : splitChar c xs with
      | nil => exact absurd hs (splitChar_ne_nil c xs)
      | cons y ys => rw [ih, hs]; simp

theorem joinChar_cons (c : Char) (x : Char) (h : List Char) (t : List (List Char)) :
    joinChar c ((x :: h) :: t) = x :: joinChar c (h :: t) := by
  cases t with
  | nil => rfl
  | cons u us => simp [joinChar]

theorem joinChar_splitChar (c : Char) (l : List Char) :
    joinChar c (splitChar c l) = l := by
  induction l with
  | nil => rfl
  | cons x xs ih =>
    simp only [splitChar]
    split
    · next hx =>
      subst hx
      cases hs : splitChar x xs with
      | nil => exact absurd hs (splitChar_ne_nil x xs)
      | cons y ys =>
        rw [hs] at ih
        simp [joinChar, ih]
    · next hx =>
      cases hs : splitChar c xs with
      | nil => exact absurd hs (splitChar_ne_nil c xs)
      | cons y ys =>
        rw [hs] at ih
        rw [joinChar_cons, ih]

/-! ### Helper lemmas: dict operations -/

theorem pyLookupA_pyInsert_self {α : Type} (d : List (String × α)) (k : String) (v : α) :
    pyLookupA (pyInsert d k v) k = Option.some v := by
  induction d with
  | nil => simp [pyInsert, pyLookupA]
  | cons kv rest ih =>
    obtain ⟨k', v'⟩ := kv
    simp only [pyInsert]
    split
    · simp [pyLookupA]
    · next hne => simp only [pyLookupA, if_neg hne, ih]

theorem pyLookupA_pyInsert_ne {α : Type} (d : List (String × α)) (k k' : String) (v : α)
    (h : k ≠ k') : pyLookupA (pyInsert d k v) k' = pyLookupA d k' := by
  induction d with
  | nil => simp [pyInsert, pyLookupA, h]
  | cons kv rest ih =>
    obtain ⟨k0, v0⟩ := kv
    simp only [pyInsert]
    split
    · next he => simp [pyLookupA, he, h]
    · simp only [pyLookupA, ih]

/-! ### Helper lemmas: stripping and integer parsing -/

theorem pyStripL_append_cr (l : List Char) :
    pyStripL (l ++ ['\r']) = pyStripL l := by
  simp only [pyStripL, List.reverse_append]
  have : List.dropWhile isPySpace (['\r'].reverse ++ l.reverse)
      = List.dropWhile isPySpace l.reverse := by
    simp [List.dropWhile, isPySpace]
  rw [this]

theorem pyStrip_append_cr (s : String) : pyStrip (s ++ "\r") = pyStrip s := by
  simp only [pyStrip, data_append]
  rw [pyStripL_append_cr]

theorem pyIntOfString_append_cr (s : String) :
    pyIntOfString (s ++ "\r") = pyIntOfString s := by
  simp only [pyIntOfString, data_append]
  rw [pyStripL_append_cr]

/-! ### Helper lemmas: dispatch_value -/

theorem dispatch_absent (d : Info) (k t : String) (ti : Option String)
    (vnt : Option (List (String × Int))) (h : pyLookupA d k = Option.none) :
    dispatch_value (PyVal.dict d) k t ti vnt = Except.ok [] := by
  simp [dispatch_value, pyMem, h]

theorem dispatch_scalar_bad (d : Info) (k t : String) (ti : Option String) (s : String)
    (h : pyLookupA d k = Option.some (PyVal.str s)) (hbad : pyIntOfString s = Option.none) :
    dispatch_value (PyVal.dict d) k t ti Option.none = Except.error PErr.valueError := by
  simp [dispatch_value, pyMem, pyGetItem, pyIntVal, h, hbad]

theorem dispatch_scalar_int (d : Info) (k t : String) (ti : Option String) (s : String)
    (n : Int) (h : pyLookupA d k = Option.some (PyVal.str s))
    (hn : pyIntOfString s = Option.some n) :
    dispatch_value (PyVal.dict d) k t ti Option.none = Except.ok [⟨t, tiEff ti k, n⟩] := by
  simp [dispatch_value, pyMem, pyGetItem, pyIntVal, h, hn]

theorem dispatch_int (d : Info) (k t : String) (ti : Option String) (n : Int)
    (h : pyLookupA d k = Option.some (PyVal.int n)) :
    dispatch_value (PyVal.dict d) k t ti Option.none = Except.ok [⟨t, tiEff ti k, n⟩] := by
  simp [dispatch_value, pyMem, pyGetItem, pyIntVal, h]

theorem dispatch_variant (d : Info) (k t : String) (ti : Option String) (s : String)
    (tbl : List (String × Int)) (h : pyLookupA d k = Option.some (PyVal.str s)) :
    dispatch_value (PyVal.dict d) k t ti (Option.some tbl)
      = match pyLookupA tbl (pyStrip s) with
        | Option.some code => Except.ok [⟨t, tiEff ti k, code⟩]
        | Option.none => Except.ok [] := by
  simp only [dispatch_value, pyMem, pyGetItem, pyStripVal, h, Option.isSome_some]
  split <;> simp_all

theorem dispatch_names {info : PyVal} {k t : String} {ti : Option String}
    {vnt : Option (List (String × Int))} {rs : List Reading}
    (h : dispatch_value info k t ti vnt = Except.ok rs) :
    ∀ r ∈ rs, r.name = tiEff ti k := by
  unfold dispatch_value at h
  split at h
  · exact Except.noConfusion h
  · split at h
    · injection h with h'
      subst h'
      intro r hr
      exact absurd hr (List.not_mem_nil r)
    · split at h
      · split at h
        · exact Except.noConfusion h
        · split at h
          · exact Except.noConfusion h
          · split at h
            · injection h with h'
              subst h'
              intro r hr
              rw [List.mem_singleton] at hr
              subst hr
              rfl
            · injection h with h'
              subst h'
              intro r hr
              exact absurd hr (List.not_mem_nil r)
      · split at h
        · exact Except.noConfusion h
        · split at h
          · exact Except.noConfusion h
          · injection h with h'
            subst h'
            intro r hr
            rw [List.mem_singleton] at hr
            subst hr
            rfl

theorem runDispatches_append (info : Info) (xs ys : List MetricSpec) :
    runDispatches info (xs ++ ys)
      = match runDispatches info xs with
        | Except.error e => Except.error e
        | Except.ok rs =>
          match runDispatches info ys with
          | Except.error e => Except.error e
          | Except.ok rs2 => Except.ok (rs ++ rs2) := by
  induction xs with
  | nil =>
    simp only [List.nil_append, runDispatches]
    split <;> simp_all
  | cons spec xs ih =>
    obtain ⟨k, t, ti, vnt⟩ := spec
    simp only [List.cons_append, List.append_eq, runDispatches, ih]
    cases dispatch_value (PyVal.dict info) k t ti vnt with
    | error e => rfl
    | ok rs0 =>
      cases runDispatches info xs with
      | error e => rfl
      | ok rs1 =>
        cases runDispatches info ys with
        | error e => rfl
        | ok rs2 => simp

theorem branchIf_names {g : Bool} {i : PyVal} {key t : String} {ti : Option String}
    {vnt : Option (List (String × Int))} {rs : List Reading}
    (h : branchIf g (dispatch_value i key t ti vnt) = Except.ok rs) :
    ∀ r ∈ rs, r.name = tiEff ti key := by
  cases g with
  | false =>
    unfold branchIf at h
    rw [if_neg (by simp)] at h
    injection h with h'
    subst h'
    intro r hr
    exact absurd hr (List.not_mem_nil r)
  | true =>
    unfold branchIf at h
    rw [if_pos rfl] at h
    exact dispatch_names h

theorem appendE_ok {x y : Except PErr (List Reading)} {r : List Reading}
    (h : appendE x y = Except.ok r) :
    ∃ a b, x = Except.ok a ∧ y = Except.ok b ∧ r = a ++ b := by
  unfold appendE at h
  split at h
  · exact Except.noConfusion h
  · split at h
    · exact Except.noConfusion h
    · injection h with h'
      exact ⟨_, _, rfl, rfl, h'.symm⟩

/-! ### Helper lemmas: string prefixes and name inequalities -/

theorem isPreC_cons_ne (a b : Char) (as bs : List Char) (h : ¬a = b) :
    isPreC (a :: as) (b :: bs) = false := by
  simp [isPreC, h]

theorem startsWith_db_data (k : String) (h : pyStartsWith k "db" = true) :
    ∃ rest, k.data = 'd' :: 'b' :: rest := by
  unfold pyStartsWith at h
  rw [show ("db" : String).data = ['d', 'b'] from rfl] at h
  cases hk : k.data with
  | nil => rw [hk] at h; exact absurd h (by simp [isPreC])
  | cons x xs =>
    rw [hk] at h
    cases xs with
    | nil =>
      simp only [isPreC] at h
      split at h
      · exact absurd h (by simp [isPreC])
      · exact absurd h (by simp)
    | cons y ys =>
      simp only [isPreC] at h
      split at h
      · next hdx =>
        split at h
        · next hby => exact ⟨ys, by rw [← hdx, ← hby]⟩
        · exact absurd h (by simp)
      · exact absurd h (by simp)

theorem db_not_repl (k : String) (h : pyStartsWith k "db" = true) :
    pyStartsWith k "repl_" = false := by
  obtain ⟨rest, hk⟩ := startsWith_db_data k h
  unfold pyStartsWith
  rw [hk, show ("repl_" : String).data = 'r' :: "epl_".data from rfl]
  exact isPreC_cons_ne _ _ _ _ (by decide)

theorem db_not_vm (k : String) (h : pyStartsWith k "db" = true) :
    pyStartsWith k "vm_stats_" = false := by
  obtain ⟨rest, hk⟩ := startsWith_db_data k h
  unfold pyStartsWith
  rw [hk, show ("vm_stats_" : String).data = 'v' :: "m_stats_".data from rfl]
  exact isPreC_cons_ne _ _ _ _ (by decide)

theorem db_not_slave (k : String) (h : pyStartsWith k "db" = true) :
    pyStartsWith k "slave" = false := by
  obtain ⟨rest, hk⟩ := startsWith_db_data k h
  unfold pyStartsWith
  rw [hk, show ("slave" : String).data = 's' :: "lave".data from rfl]
  exact isPreC_cons_ne _ _ _ _ (by decide)

theorem str_ne_append (k t : String) (ht : t ≠ "") : k ≠ k ++ t := by
  intro h
  have hd : k.data = k.data ++ t.data := congrArg String.data h
  have hlen := congrArg List.length hd
  rw [List.length_append] at hlen
  have : t.data.length = 0 := by omega
  exact ht (by rw [← mk_data t, List.length_eq_zero.mp this])

theorem append_right_ne (k t u : String) (h : t.data ≠ u.data) : k ++ t ≠ k ++ u := by
  intro he
  have hd : k.data ++ t.data = k.data ++ u.data := congrArg String.data he
  exact h (List.append_cancel_left hd)

theorem append_ne_empty (k t : String) (ht : t.data ≠ []) : k ++ t ≠ "" := by
  intro h
  have hd : k.data ++ t.data = [] := congrArg String.data h
  rcases List.append_eq_nil.mp hd with ⟨-, h2⟩
  exact ht h2

/-! ### Helper lemmas: the delay loop preserves non-slave entries -/

theorem delayStep_lookup (info info' : Info) (k k' : String) (hne : slaveMatch k' = false)
    (h : delayStep info k = Except.ok info') : pyLookupA info' k' = pyLookupA info k' := by
  unfold delayStep at h
  split at h
  · injection h with h'
    subst h'
    rfl
  · next hsm =>
    split at h
    · exact Except.noConfusion h
    · split at h
      · exact Except.noConfusion h
      · split at h
        · exact Except.noConfusion h
        · split at h
          · exact Except.noConfusion h
          · unfold pySetDelay at h
            split at h
            · injection h with h'
              subst h'
              refine pyLookupA_pyInsert_ne _ _ _ _ (fun he => ?_)
              rw [he] at hsm
              rw [hsm] at hne
              exact Bool.noConfusion hne
            · exact Except.noConfusion h
            · exact Except.noConfusion h

theorem delayLoop_lookup (ks : List String) (info info' : Info) (k' : String)
    (hne : slaveMatch k' = false) (h : delayLoop info ks = Except.ok info') :
    pyLookupA info' k' = pyLookupA info k' := by
  induction ks generalizing info with
  | nil =>
    unfold delayLoop at h
    injection h with h'
    subst h'
    rfl
  | cons k ks ih =>
    unfold delayLoop at h
    split at h
    · exact Except.noConfusion h
    · next info1 hstep =>
      rw [ih info1 h, delayStep_lookup info info1 k k' hne hstep]

/-! ### Claims -/

/-- C1 counterexample: the claim says every line containing `:` yields
exactly one entry split at the first `:` (here `("a", "b:c")`) and that
the parse never fails; but `key, val = line.split(':')` splits on every
`:` and the three-way unpack raises `ValueError`, so the whole parse
fails and even the entry from the well-formed line `"x:1"` is lost. -/
theorem c1_counterexample :
    parse_info ["x:1", "a:b:c"] = Except.error PErr.valueError := rfl

/-- C1 (amended): a line without `:` is skipped, leaving the fold state
untouched; a line with exactly one `:` yields exactly one entry, the key
being the text before the `:` and the value the text after it; but any
line containing two or more `:` (any number) makes the whole parse fail
with `ValueError`, because `line.split(':')` then has three or more
pieces and the two-element unpack fails. -/
theorem c1_parse_first_colon_amended (info : Info) (line : String) (rest : List String) :
    (elemC ':' line.data = false →
      parseLinesAux info (line :: rest) = parseLinesAux info rest)
    ∧ (∀ k v : String, line = k ++ ":" ++ v →
        elemC ':' k.data = false → elemC ':' v.data = false →
        parseLinesAux info (line :: rest)
          = parseLinesAux (pyInsert info k (mkFieldVal v)) rest)
    ∧ (2 ≤ countC ':' line.data →
        parseLinesAux info (line :: rest) = Except.error PErr.valueError) := by
  refine ⟨fun h => ?_, fun k v hl hk hv => ?_, fun h2 => ?_⟩
  · simp only [parseLinesAux]
    rw [h]
  · subst hl
    have hd : (k ++ ":" ++ v).data = k.data ++ ':' :: v.data := by
      simp only [data_append, List.append_assoc]
      rfl
    simp only [parseLinesAux, pySplitStr, hd]
    rw [elemC_append_sep, splitChar_sep, splitChar_no_sep _ _ hk, splitChar_no_sep _ _ hv]
    simp [mk_data]
  · have hg : elemC ':' line.data = true := elemC_of_countC ':' line.data (by omega)
    have hlen : (splitChar ':' line.data).length = countC ':' line.data + 1 :=
      length_splitChar ':' line.data
    simp only [parseLinesAux, pySplitStr]
    rcases hL : splitChar ':' line.data with _ | ⟨a, _ | ⟨b, _ | ⟨c, t⟩⟩⟩
    · rw [hL] at hlen; simp at hlen
    · rw [hL] at hlen; simp at hlen; omega
    · rw [hL] at hlen; simp at hlen; omega
    · rw [hg]
      rfl

/-- C1 witness: the three cases of the amended claim at concrete lines: a
colon-free line is skipped, `"a:b"` yields the entry `("a", "b")`, and
the three-colon line `"p:q:r:s"` fails the whole parse. -/
theorem c1_witness :
    parseLinesAux [] ["nocolon", "a:b", "p:q:r:s"] = Except.error PErr.valueError := by
  rw [(c1_parse_first_colon_amended [] "nocolon" ["a:b", "p:q:r:s"]).1 rfl]
  rw [(c1_parse_first_colon_amended [] "a:b" ["p:q:r:s"]).2.1 "a" "b" rfl rfl rfl]
  exact (c1_parse_first_colon_amended _ "p:q:r:s" []).2.2 (by decide)

/-- C2: the claim (and the spec) say a replica entry lacking
`master_repl_offset` or with a non-numeric `offset` simply gets no
`delay` and derivation continues; the code's line 106 is an unguarded
`int(info['master_repl_offset']) - int(info[key]['offset'])`, so the
first input raises `KeyError` and the second raises `ValueError`,
aborting the whole parse. The spec itself flags this crash path as one it
intentionally hardens, so the code, not the claim, is at fault. -/
theorem c2_delay_crash :
    parse_info ["slave0:ip=10,offset=900"] = Except.error PErr.keyError
    ∧ parse_info ["master_repl_offset:1000", "slave0:ip=10,offset=abc"]
        = Except.error PErr.valueError := ⟨rfl, rfl⟩

/-- C3 counterexample: the claim says that with neither change-counter
field present, `changes_since_last_save` is absent from the result; but
line 100 always assigns, so parsing an empty report yields a mapping in
which `changes_since_last_save` is present and bound to `None`. -/
theorem c3_counterexample :
    parse_info [] = Except.ok [("changes_since_last_save", PyVal.none)] := rfl

/-- C3 (amended): when `changes_since_last_save` is absent it is set to
the value of `rdb_changes_since_last_save` when that key exists, and to
`None` otherwise — so after every successful parse the key is present
(never absent). -/
theorem c3_alias_amended :
    (∀ i : Info, pyLookupA i "changes_since_last_save" = Option.none →
      ((∀ v, pyLookupA i "rdb_changes_since_last_save" = Option.some v →
          pyLookupA (aliasStep i) "changes_since_last_save" = Option.some v)
       ∧ (pyLookupA i "rdb_changes_since_last_save" = Option.none →
          pyLookupA (aliasStep i) "changes_since_last_save" = Option.some PyVal.none)))
    ∧ (∀ (lines : List String) (i : Info), parse_info lines = Except.ok i →
        (pyLookupA i "changes_since_last_save").isSome = true) := by
  constructor
  · intro i h
    constructor
    · intro v hv
      unfold aliasStep
      rw [h, hv]
      exact pyLookupA_pyInsert_self i "changes_since_last_save" v
    · intro hv
      unfold aliasStep
      rw [h, hv]
      exact pyLookupA_pyInsert_self i "changes_since_last_save" PyVal.none
  · intro lines i h
    unfold parse_info at h
    split at h
    · exact Except.noConfusion h
    · next i0 hlines =>
      have hpresent : pyLookupA (aliasStep i0) "changes_since_last_save"
          = Option.some (match pyLookupA i0 "changes_since_last_save" with
            | Option.some v => v
            | Option.none =>
              match pyLookupA i0 "rdb_changes_since_last_save" with
              | Option.some w => w
              | Option.none => PyVal.none) :=
        pyLookupA_pyInsert_self i0 "changes_since_last_save" _
      rw [delayLoop_lookup _ _ _ "changes_since_last_save" (by rfl) h, hpresent]
      rfl

/-- C3 witness: the amended claim applied at the empty mapping (alias
falls back to `None`), at a mapping holding only the `rdb_` counter
(value copied), and at a concrete successful parse. -/
theorem c3_witness :
    pyLookupA (aliasStep []) "changes_since_last_save" = Option.some PyVal.none
    ∧ pyLookupA (aliasStep [("rdb_changes_since_last_save", PyVal.str "42")])
        "changes_since_last_save" = Option.some (PyVal.str "42")
    ∧ (pyLookupA [("changes_since_last_save", PyVal.none)] "changes_since_last_save").isSome
        = true := by
  refine ⟨(c3_alias_amended.1 [] rfl).2 rfl,
          (c3_alias_amended.1 [("rdb_changes_since_last_save", PyVal.str "42")] rfl).1
            (PyVal.str "42") rfl,
          ?_⟩
  have := c3_alias_amended.2 [] [("changes_since_last_save", PyVal.none)] rfl
  exact this

/-- C4 counterexample: the claim says a comma-separated piece without `=`
yields that piece as the sub-key with an empty sub-value; but
`rpartition('=')` with no separator returns `('', '', piece)`, so the
piece `"a"` of the line `"k:a,b=2"` yields the entry `("", "a")` — empty
sub-KEY and the piece as the sub-VALUE — and no entry with key `"a"`. -/
theorem c4_counterexample :
    parse_info ["k:a,b=2"]
      = Except.ok [("k", PyVal.dict [("", PyVal.str "a"), ("b", PyVal.str "2")]),
                   ("changes_since_last_save", PyVal.none)] := rfl

/-- C4 (amended): each comma-separated piece splits at its rightmost `=`
into `(sub_key, sub_val)` — so `"offset=5=x"` yields sub-key `"offset=5"`
and sub-value `"x"` — and a piece with no `=` yields an entry with EMPTY
sub-key and the whole piece as the sub-value. -/
theorem c4_rpartition_amended :
    (∀ a b : String, elemC '=' b.data = false →
        pyRPartitionEq (a ++ "=" ++ b) = (a, b))
    ∧ (∀ p : String, elemC '=' p.data = false → pyRPartitionEq p = ("", p))
    ∧ mkFieldVal "state=online,offset=5=x"
        = PyVal.dict [("state", PyVal.str "online"), ("offset=5", PyVal.str "x")] := by
  refine ⟨fun a b hb => ?_, fun p hp => ?_, rfl⟩
  · have hd : (a ++ "=" ++ b).data = a.data ++ '=' :: b.data := by
      simp only [data_append, List.append_assoc]
      rfl
    simp only [pyRPartitionEq, rpartitionEqL, hd]
    rw [splitChar_sep, splitChar_no_sep _ _ hb]
    have h1 : (splitChar '=' a.data ++ [b.data]).dropLast = splitChar '=' a.data := by simp
    have h2 : (splitChar '=' a.data ++ [b.data]).getLastD [] = b.data := by simp
    rw [h1, h2, joinChar_splitChar]
  · simp only [pyRPartitionEq, rpartitionEqL]
    rw [splitChar_no_sep _ _ hp]
    rfl

/-- C4 witness: the amended claim at the pieces `"offset=5=x"` (rightmost
`=` wins even though the left part contains `=`) and `"a"` (no `=`:
empty sub-key, the piece as sub-value). -/
theorem c4_witness :
    pyRPartitionEq ("offset=5" ++ "=" ++ "x") = ("offset=5", "x")
    ∧ pyRPartitionEq "a" = ("", "a") :=
  ⟨c4_rpartition_amended.1 "offset=5" "x" rfl, c4_rpartition_amended.2.1 "a" rfl⟩

/-- C5 counterexample: the claim says a non-integer-parseable scalar
skips only that metric and the projection of the remaining metrics
continues; here `connected_clients = "abc"` makes `int(...)` raise
`ValueError`, the whole projection aborts, and no reading is produced
for the parseable `blocked_clients = "3"` that follows. -/
theorem c5_counterexample :
    read_callback [("connected_clients", PyVal.str "abc"), ("blocked_clients", PyVal.str "3")]
      = Except.error PErr.valueError := rfl

/-- C5 (amended): for ANY metric dispatched without a variant table, at
ANY position of the dispatch sequence: if the dispatches before it
succeed and the metric's value is a scalar that is not integer-parseable,
the `int(...)` coercion raises `ValueError` and the whole run of
dispatches aborts with that exception — the metrics after it (an
arbitrary `post`) are never projected — and when the sequence is
`read_callback`'s standard metric list the exception propagates out of
`read_callback` itself. -/
theorem c5_projection_abort_amended (info : Info) (pre post : List MetricSpec)
    (k t : String) (ti : Option String) (s : String) (rs : List Reading)
    (hpre : runDispatches info pre = Except.ok rs)
    (h1 : pyLookupA info k = Option.some (PyVal.str s))
    (hbad : pyIntOfString s = Option.none) :
    runDispatches info (pre ++ (k, t, ti, Option.none) :: post)
      = Except.error PErr.valueError
    ∧ (stdSpecs = pre ++ (k, t, ti, Option.none) :: post →
        read_callback info = Except.error PErr.valueError) := by
  have habort : runDispatches info (pre ++ (k, t, ti, Option.none) :: post)
      = Except.error PErr.valueError := by
    rw [runDispatches_append, hpre]
    simp only [runDispatches, dispatch_scalar_bad info k t ti s h1 hbad]
  refine ⟨habort, fun hspl => ?_⟩
  unfold read_callback
  rw [hspl, habort]

/-- C5 witness: the amended claim with the failing metric
`connected_clients` in its real position in `stdSpecs` (second, after a
successfully dispatched `uptime_in_seconds`): the whole projection
aborts even though the first metric had already been dispatched. -/
theorem c5_witness :
    read_callback [("uptime_in_seconds", PyVal.str "5"),
                   ("connected_clients", PyVal.str "abc")]
      = Except.error PErr.valueError := by
  have h := c5_projection_abort_amended
    [("uptime_in_seconds", PyVal.str "5"), ("connected_clients", PyVal.str "abc")]
    [("uptime_in_seconds", "uptime", Option.some "uptime", Option.none)]
    [ ("connected_slaves", "gauge", Option.none, Option.none),
      ("blocked_clients", "gauge", Option.none, Option.none),
      ("used_memory", "bytes", Option.none, Option.none),
      ("rdb_changes_since_last_save", "gauge", Option.none, Option.none),
      ("total_connections_received", "counter", Option.some "connections_recieved", Option.none),
      ("total_commands_processed", "counter", Option.some "commands_processed", Option.none),
      ("keyspace_hits", "counter", Option.some "hits", Option.none),
      ("keyspace_misses", "counter", Option.some "misses", Option.none),
      ("role", "gauge", Option.none, Option.some [("slave", 0), ("master", 1)]),
      ("rdb_bgsave_in_progress", "gauge", Option.some "background_save_in_progress", Option.none) ]
    "connected_clients" "gauge" Option.none "abc"
    [⟨"uptime", "uptime", 5⟩] rfl rfl rfl
  exact h.2 rfl

/-- C6: with a variant table, projection looks up the stripped scalar in
the table: a recognized variant emits exactly one reading with the
table's fixed numeric code, and an unrecognized one emits no reading and
raises no error. -/
theorem c6_variant_projection (d : Info) (k t : String) (ti : Option String) (s : String)
    (tbl : List (String × Int)) (h : pyLookupA d k = Option.some (PyVal.str s)) :
    dispatch_value (PyVal.dict d) k t ti (Option.some tbl)
      = match pyLookupA tbl (pyStrip s) with
        | Option.some code => Except.ok [⟨t, tiEff ti k, code⟩]
        | Option.none => Except.ok [] :=
  dispatch_variant d k t ti s tbl h

/-- C6 witness: the role metric with the table of line 176:
`role = slave` emits the reading `(gauge, role, 0)`, and the unrecognized
`role = unknown` emits no reading and no error. -/
theorem c6_witness :
    dispatch_value (PyVal.dict [("role", PyVal.str "slave")]) "role" "gauge" Option.none
        (Option.some [("slave", 0), ("master", 1)])
      = Except.ok [⟨"gauge", "role", 0⟩]
    ∧ dispatch_value (PyVal.dict [("role", PyVal.str "unknown")]) "role" "gauge" Option.none
        (Option.some [("slave", 0), ("master", 1)])
      = Except.ok [] := by
  constructor
  · rw [c6_variant_projection [("role", PyVal.str "slave")] "role" "gauge" Option.none
        "slave" [("slave", 0), ("master", 1)] rfl]
    rfl
  · rw [c6_variant_projection [("role", PyVal.str "unknown")] "role" "gauge" Option.none
        "unknown" [("slave", 0), ("master", 1)] rfl]
    rfl

/-- C7 counterexample: the claim says `<key>-keys` readings are emitted
exactly for keys matching `db<digits>`; the code only checks
`key.startswith('db')`, so the key `dbx`, which does not match the
pattern, still emits the reading `(gauge, dbx-keys, 7)`. -/
theorem c7_counterexample :
    read_callback [("dbx", PyVal.dict [("keys", PyVal.str "7")])]
      = Except.ok ([("dbx", PyVal.dict [("keys", PyVal.str "7")])],
                   [⟨"gauge", "dbx-keys", 7⟩]) := rfl

/-- C7 (amended): the wildcard projection emits a `<key>-keys` reading
for every top-level key STARTING WITH `db` (not only `db<digits>`) whose
entry is a dict with an integer-parseable `keys` sub-field; and for a key
not starting with `db`, no reading named `<key>-keys` is produced by that
key's loop iteration. -/
theorem c7_db_wildcard_amended (info : Info) (k : String) :
    (∀ (d : Info) (s : String) (n : Int), pyStartsWith k "db" = true →
        pyLookupA info k = Option.some (PyVal.dict d) →
        pyLookupA d "keys" = Option.some (PyVal.str s) →
        pyIntOfString s = Option.some n →
        wildcardStep info k = Except.ok [⟨"gauge", k ++ "-keys", n⟩])
    ∧ (pyStartsWith k "db" = false →
        ∀ rs, wildcardStep info k = Except.ok rs →
        ∀ r ∈ rs, r.name ≠ k ++ "-keys") := by
  constructor
  · intro d s n hdb hk hkeys hint
    have hitem : pyItemD info k = PyVal.dict d := by simp [pyItemD, hk]
    unfold wildcardStep
    rw [db_not_repl k hdb, db_not_vm k hdb, db_not_slave k hdb, hdb, hitem]
    rw [dispatch_scalar_int d "keys" "gauge" (Option.some (k ++ "-keys")) s n hkeys hint]
    have hti : tiEff (Option.some (k ++ "-keys")) "keys" = k ++ "-keys" := by
      show (if k ++ "-keys" = "" then "keys" else k ++ "-keys") = k ++ "-keys"
      rw [if_neg (append_ne_empty k "-keys" (by decide))]
    rw [hti]
    simp [branchIf, appendE]
  · intro hndb rs h r hr
    unfold wildcardStep at h
    rw [hndb] at h
    obtain ⟨a, bcd, ha, hbcd, rfl⟩ := appendE_ok h
    obtain ⟨b, cd, hb, hcd, rfl⟩ := appendE_ok hbcd
    obtain ⟨c, dd, hc, hdd, rfl⟩ := appendE_ok hcd
    have hc0 : c = [] := by
      unfold branchIf at hc
      rw [if_neg (by simp)] at hc
      injection hc with h'
      exact h'.symm
    subst hc0
    have hka : ∀ r ∈ a, r.name = k := branchIf_names ha
    have hkb : ∀ r ∈ b, r.name = k := branchIf_names hb
    have hkd : ∀ r ∈ dd, r.name = tiEff (Option.some (k ++ "-delay")) "delay" :=
      branchIf_names hdd
    rcases List.mem_append.mp hr with hra | hrest
    · rw [hka r hra]
      exact str_ne_append k "-keys" (by decide)
    · rcases List.mem_append.mp hrest with hrb | hrest2
      · rw [hkb r hrb]
        exact str_ne_append k "-keys" (by decide)
      · rcases List.mem_append.mp hrest2 with hrc | hrd
        · exact absurd hrc (List.not_mem_nil r)
        · rw [hkd r hrd]
          have hti : tiEff (Option.some (k ++ "-delay")) "delay" = k ++ "-delay" := by
            show (if k ++ "-delay" = "" then "delay" else k ++ "-delay") = k ++ "-delay"
            rw [if_neg (append_ne_empty k "-delay" (by decide))]
          rw [hti]
          exact append_right_ne k "-delay" "-keys" (by decide)

/-- C7 witness: the positive half of the amended claim at the key `dbx`
with a dict entry `keys = "7"`. -/
theorem c7_witness :
    wildcardStep [("dbx", PyVal.dict [("keys", PyVal.str "7")])] "dbx"
      = Except.ok [⟨"gauge", "dbx-keys", 7⟩] := by
  have := (c7_db_wildcard_amended [("dbx", PyVal.dict [("keys", PyVal.str "7")])] "dbx").1
    [("keys", PyVal.str "7")] "7" 7 rfl rfl rfl rfl
  exact this

/-- C8 counterexample: the claim says the TCP connection is closed before
the fetch returns on every path; on the authentication-failure path the
code returns `None` at line 65 without ever calling `s.close()`, so the
fetch ends with the socket still open. -/
theorem c8_counterexample :
    fetch_info ⟨true, Option.some "pw", "-ERR wrong password\r\n", "", ""⟩
      = ⟨Except.ok Option.none, false⟩ := rfl

/-- C8 (amended): `s.close()` runs exactly on the path where the connect
succeeds, authentication (if a password is configured) succeeds, and the
status line parses as an integer; the connect-failure, auth-failure and
bad-status-line paths all leave `fetch_info` without closing the socket
(on the close path the close happens before `parse_info`, so the socket
is closed even when parsing then raises). -/
theorem c8_close_iff_amended (env : FetchEnv) :
    (fetch_info env).closed = true
      ↔ (env.connectOk = true
          ∧ (pwTruthy env.password = true → pyStartsWith env.authReply "+OK" = true)
          ∧ (pyIntOfString (pySlice1Neg1 env.statusLine)).isSome = true) := by
  cases hco : env.connectOk with
  | false => simp [fetch_info, hco]
  | true =>
    cases hpw : pwTruthy env.password with
    | false =>
      cases hint : pyIntOfString (pySlice1Neg1 env.statusLine) with
      | none => simp [fetch_info, hco, hpw, hint]
      | some n =>
        simp [fetch_info, hco, hpw, hint]
        split <;> rfl
    | true =>
      cases hok : pyStartsWith env.authReply "+OK" with
      | false => simp [fetch_info, hco, hpw, hok]
      | true =>
        cases hint : pyIntOfString (pySlice1Neg1 env.statusLine) with
        | none => simp [fetch_info, hco, hpw, hok, hint]
        | some n =>
          simp [fetch_info, hco, hpw, hok, hint]
          split <;> rfl

/-- C9: the projection step is not read-only: when the replica-delay list
is non-empty (equivalently, the mapping has at least one key matched by
the `slave\d+` regex), `read_callback`'s slaves block inserts the new
top-level entry `slaves_max_delay`, holding the maximum of the `delay`
values, into the mapping itself, and the emitted reading is dispatched
from that mutated mapping. -/
theorem c9_slaves_max_delay_inserted (info : Info) (d0 : Int) (ds : List Int)
    (h : slaveDelays info = Except.ok (PyVal.int d0 :: ds.map PyVal.int)) :
    info.filter (fun kv => slaveMatch kv.1) ≠ []
    ∧ slavesBlock info
        = Except.ok
            (pyInsert info "slaves_max_delay" (PyVal.int (ds.foldl max d0)),
             [⟨"gauge", "slaves_max_delay", ds.foldl max d0⟩]) := by
  constructor
  · intro hfil
    unfold slaveDelays at h
    rw [hfil] at h
    exact List.noConfusion (Except.ok.inj h)
  · unfold slavesBlock
    rw [h]
    have hmax : ∀ (ds : List Int) (d0 : Int),
        pyMaxVals (PyVal.int d0) (ds.map PyVal.int)
          = Except.ok (PyVal.int (ds.foldl max d0)) := by
      intro ds
      induction ds with
      | nil => intro d0; rfl
      | cons x xs ih => intro d0; simp only [List.map, List.foldl, pyMaxVals]; exact ih (max d0 x)
    dsimp only
    rw [hmax ds d0]
    dsimp only
    rw [dispatch_int (pyInsert info "slaves_max_delay" (PyVal.int (ds.foldl max d0)))
        "slaves_max_delay" "gauge" Option.none (ds.foldl max d0)
        (pyLookupA_pyInsert_self info "slaves_max_delay" (PyVal.int (ds.foldl max d0)))]
    rfl

/-- C9 witness: a mapping with two replica entries carrying delays 3 and
7: the block inserts `slaves_max_delay = 7` into the mapping and emits
the corresponding reading. -/
theorem c9_witness :
    slavesBlock [("slave0", PyVal.dict [("delay", PyVal.int 3)]),
                 ("slave1", PyVal.dict [("delay", PyVal.int 7)])]
      = Except.ok
          ([("slave0", PyVal.dict [("delay", PyVal.int 3)]),
            ("slave1", PyVal.dict [("delay", PyVal.int 7)]),
            ("slaves_max_delay", PyVal.int 7)],
           [⟨"gauge", "slaves_max_delay", 7⟩]) := by
  have := (c9_slaves_max_delay_inserted
    [("slave0", PyVal.dict [("delay", PyVal.int 3)]),
     ("slave1", PyVal.dict [("delay", PyVal.int 7)])] 3 [7] rfl).2
  rw [this]
  rfl

/-- C10: the parser stores scalar values verbatim (a CRLF-terminated line
leaves a trailing `\r` in the stored value), and projection is
insensitive to it: `int(...)` ignores surrounding whitespace (including
`\r`, and e.g. `" 42 "` parses to 42), and the variant path strips the
scalar before the table lookup, so a stored value with a trailing `\r`
dispatches identically to the trimmed value under both projection
modes. -/
theorem c10_verbatim_cr_projection :
    parseLinesAux [] ["role:master\r"] = Except.ok [("role", PyVal.str "master\r")]
    ∧ (∀ s : String, pyIntOfString (s ++ "\r") = pyIntOfString s)
    ∧ pyIntOfString " 42 " = Option.some 42
    ∧ (∀ (k t : String) (ti : Option String) (vnt : Option (List (String × Int)))
         (s : String),
        dispatch_value (PyVal.dict [(k, PyVal.str (s ++ "\r"))]) k t ti vnt
          = dispatch_value (PyVal.dict [(k, PyVal.str s)]) k t ti vnt) := by
  refine ⟨rfl, pyIntOfString_append_cr, rfl, fun k t ti vnt s => ?_⟩
  cases vnt with
  | none =>
    simp [dispatch_value, pyMem, pyGetItem, pyStripVal, pyIntVal, pyLookupA,
      pyIntOfString_append_cr]
  | some tbl =>
    simp [dispatch_value, pyMem, pyGetItem, pyStripVal, pyIntVal, pyLookupA,
      pyStrip_append_cr]

end RedisInfo
